import Mathlib

/-!
A shallow embedding of the enviro library (tigerwill90/enviro): a Go package
that populates a struct from environment variables, driven by struct tags.

The embedding models the current version of the package: the entry point
ParseEnvWithPrefix, the tag grammar (parseTag, parseTimeFormatTag,
parseFileFormatTag), the field-coercion dispatcher setField with its
ParseField custom-hook check, the per-kind coercers (setIntField, ...),
the slice builder setSliceField with its per-element loops and the
whole-value net.IP / net.HardwareAddr guards, and the struct/map format
dispatch (setStructField, setMapField).

Modelling conventions:
- Go reflect types are modelled by the inductive Ty.  Named types that the
  code recognises by identity (time.Duration, time.Time, time.Location,
  url.URL, os.File, net.IP, net.HardwareAddr) are dedicated constructors;
  a type implementing the ParseField interface is wrapped in Ty.hooked.
- Go values are modelled by the inductive Value.  Machine integers are
  carried as Int/Nat with the range checks done by the parse functions,
  exactly where strconv does them.
- Library collaborators that the code uses as black boxes (time parsing,
  url parsing, json/yaml decoding, file opening, net.ParseIP/ParseMAC,
  ParseField implementations) are supplied by a World record; theorems
  quantify over the World.
- strconv.ParseInt / ParseUint / ParseBool are modelled concretely.
  strconv.ParseFloat is modelled for plain decimal literals (hex floats
  and inf/nan spellings are outside every property proved here); the
  parsed float is carried as its accepted literal.
- strings.Split on "," and "|", strings.TrimSpace, strings.ToUpper,
  strings.HasPrefix and strings.TrimPrefix are modelled over the
  character lists of strings (ASCII/Latin-1 fragment of unicode.IsSpace,
  ASCII uppercase), which covers every string the properties touch.
- The environment is an association list looked up by exact key, like the
  snapshot semantics of os.LookupEnv.
- Slice recursion (a slice whose elements are slices) is driven by a depth
  argument computed from the element type (tyDepth); the depth strictly
  exceeds the slice-nesting depth of the type, so the zero-depth branch is
  unreachable and the definition computes by structural recursion.
-/

namespace Enviro

/-! ## String primitives (models of the strings package functions used) -/

/-- The whitespace predicate of strings.TrimSpace (unicode.IsSpace),
restricted to its ASCII/Latin-1 fragment. -/
def isGoSpace (c : Char) : Bool :=
  c == ' ' || c.val == 9 || c.val == 10 || c.val == 11 || c.val == 12 ||
    c.val == 13 || c.val == 133 || c.val == 160

/-- strings.TrimSpace: remove leading and trailing whitespace. -/
def trimSpace (s : String) : String :=
  String.mk (((s.data.dropWhile isGoSpace).reverse.dropWhile isGoSpace).reverse)

/-- strings.ToUpper, ASCII fragment (every key in the properties is ASCII). -/
def toUpperStr (s : String) : String :=
  String.mk (s.data.map Char.toUpper)

/-- Character-list core of strings.Split with a one-character separator. -/
def splitChAux (sep : Char) : List Char → List Char → List String
  | [], acc => [String.mk acc.reverse]
  | c :: cs, acc =>
      if c == sep then String.mk acc.reverse :: splitChAux sep cs []
      else splitChAux sep cs (c :: acc)

/-- strings.Split(s, ","). Never returns an empty list; splitting the empty
string yields one empty element, as in Go. -/
def splitComma (s : String) : List String := splitChAux ',' s.data []

/-- strings.Split(s, "|"), used by the file format-option grammar. -/
def splitPipe (s : String) : List String := splitChAux '|' s.data []

/-- Character-list core of strings.HasPrefix. -/
def isPre : List Char → List Char → Bool
  | [], _ => true
  | _ :: _, [] => false
  | p :: ps, c :: cs => p == c && isPre ps cs

/-- strings.HasPrefix s pre. -/
def strHasPre (s pre : String) : Bool := isPre pre.data s.data

/-- strings.TrimPrefix: drop pre from the front of s when present. -/
def trimPre (pre s : String) : String :=
  if strHasPre s pre then String.mk (s.data.drop pre.data.length) else s

/-! ## strconv models -/

def isDigit (c : Char) : Bool := 48 ≤ c.val && c.val ≤ 57

/-- Accumulate a base-10 value over a digit list; fails on a non-digit. -/
def digitsVal : List Char → Nat → Option Nat
  | [], acc => some acc
  | c :: cs, acc =>
      if isDigit c then digitsVal cs (acc * 10 + (c.toNat - 48)) else none

/-- A non-empty all-digit run, as a base-10 value. -/
def parseDigits : List Char → Option Nat
  | [] => none
  | cs => digitsVal cs 0

/-- strconv.ParseUint(s, 10, bits): no sign is permitted, base 10 digits
only, and the value must fit the bit width. -/
def goParseUint (s : String) (bits : Nat) : Option Nat :=
  match parseDigits s.data with
  | none => none
  | some n => if n < 2 ^ bits then some n else none

/-- strconv.ParseInt(s, 10, bits): an optional sign, base 10 digits, and a
two's-complement range check at the bit width. -/
def goParseInt (s : String) (bits : Nat) : Option Int :=
  match s.data with
  | '+' :: cs =>
      match parseDigits cs with
      | none => none
      | some n => if n < 2 ^ (bits - 1) then some (n : Int) else none
  | '-' :: cs =>
      match parseDigits cs with
      | none => none
      | some n => if n ≤ 2 ^ (bits - 1) then some (-(n : Int)) else none
  | cs =>
      match parseDigits cs with
      | none => none
      | some n => if n < 2 ^ (bits - 1) then some (n : Int) else none

/-- strconv.ParseBool: the closed set of accepted literals. -/
def goParseBool (s : String) : Option Bool :=
  if s == "1" || s == "t" || s == "T" || s == "true" || s == "TRUE" || s == "True" then
    some true
  else if s == "0" || s == "f" || s == "F" || s == "false" || s == "FALSE" || s == "False" then
    some false
  else none

/-- Leading digit run: its length and the rest of the list. -/
def spanDigits : List Char → Nat × List Char
  | [] => (0, [])
  | c :: cs =>
      if isDigit c then
        let r := spanDigits cs
        (r.1 + 1, r.2)
      else (0, c :: cs)

def dropSign : List Char → List Char
  | '+' :: r => r
  | '-' :: r => r
  | r => r

/-- Exponent part of a float literal: optional sign then a non-empty digit
run, consuming the whole rest. -/
def expPart (cs : List Char) : Bool :=
  match dropSign cs with
  | [] => false
  | ds => ds.all isDigit

/-- Syntax of the plain decimal forms accepted by strconv.ParseFloat:
[sign] digits [. digits] [(e|E) [sign] digits], with at least one mantissa
digit. -/
def floatSyntaxOk (s : String) : Bool :=
  let cs := dropSign s.data
  let m1 := spanDigits cs
  let m2 := match m1.2 with
            | '.' :: r => spanDigits r
            | r => (0, r)
  if m1.1 + m2.1 == 0 then false
  else
    match m2.2 with
    | [] => true
    | 'e' :: r => expPart r
    | 'E' :: r => expPart r
    | _ => false

/-- strconv.ParseFloat, plain decimal forms; the value is carried as its
accepted literal. -/
def goParseFloat (s : String) : Option String :=
  if floatSyntaxOk s then some s else none

/-- Octal digit accumulation for strconv.ParseUint(s, 8, 32). -/
def octVal : List Char → Nat → Option Nat
  | [], acc => some acc
  | c :: cs, acc =>
      if 48 ≤ c.val && c.val ≤ 55 then octVal cs (acc * 8 + (c.toNat - 48)) else none

/-- strconv.ParseUint(s, 8, 32): non-empty octal digits within 32 bits. -/
def goParseOctal (s : String) : Option Nat :=
  match s.data with
  | [] => none
  | cs =>
      match octVal cs 0 with
      | none => none
      | some n => if n < 2 ^ 32 then some n else none

/-! ## Tag grammar -/

/-- The result of parseTag: the key (part 0) and the two flags. -/
structure TagDirective where
  key : String
  omitPfx : Bool
  required : Bool
deriving DecidableEq

/-- The flag recognition of parseTag over the comma-split parts.  With more
than two parts the code tests part 1 against "required" and part 2 against
"omitprefix" only; with exactly two parts it tests part 1 against both. -/
def parseTagParts : List String → TagDirective
  | [] => { key := "", omitPfx := false, required := false }
  | [p0] => { key := trimSpace p0, omitPfx := false, required := false }
  | [p0, p1] =>
      { key := trimSpace p0
        omitPfx := trimSpace p1 == "omitprefix"
        required := trimSpace p1 == "required" }
  | p0 :: p1 :: p2 :: _ =>
      { key := trimSpace p0
        omitPfx := trimSpace p2 == "omitprefix"
        required := trimSpace p1 == "required" }

/-- parseTag: split the enviro tag on commas and recognise the flags. -/
def parseTag (tag : String) : TagDirective := parseTagParts (splitComma tag)

/-- parseTimeFormatTag: a "time:" option carries a layout and an optional
location, comma-separated. -/
def parseTimeFormatTag (tag : String) : String × String :=
  if strHasPre tag "time:" then
    let parts := splitComma (trimPre "time:" tag)
    (trimSpace (parts.headD ""),
     if parts.length > 1 then trimSpace (parts.getD 1 "") else "")
  else ("", "")

/-- Open-flag constants of the os package (Linux values). -/
def oRDONLY : Nat := 0
def oWRONLY : Nat := 1
def oRDWR : Nat := 2
def oCREATE : Nat := 64
def oTRUNC : Nat := 512
def oAPPEND : Nat := 1024

/-- One token of the file format option: the known tokens update the flag,
anything else is tried as an octal permission (on the untrimmed token,
exactly as the code does). -/
def fileOptStep (acc : Nat × Nat) (tok : String) : Nat × Nat :=
  if trimSpace tok == "ro" then (oRDONLY, acc.2)
  else if trimSpace tok == "wo" then (oWRONLY, acc.2)
  else if trimSpace tok == "rw" then (oRDWR, acc.2)
  else if trimSpace tok == "create" then (acc.1 ||| oCREATE, acc.2)
  else if trimSpace tok == "truncate" then (acc.1 ||| oTRUNC, acc.2)
  else if trimSpace tok == "append" then (acc.1 ||| oAPPEND, acc.2)
  else
    match goParseOctal tok with
    | some p => (acc.1, p)
    | none => acc

/-- parseFileFormatTag: defaults O_RDONLY and 0666; a "file:" option is
split on commas, each part trimmed and split on pipes, and each token
folded through fileOptStep. -/
def parseFileFormatTag (tag : String) : Nat × Nat :=
  if strHasPre tag "file:" then
    (splitComma (trimPre "file:" tag)).foldl
      (fun acc part => (splitPipe (trimSpace part)).foldl fileOptStep acc)
      (oRDONLY, 438)
  else (oRDONLY, 438)

/-! ## Types, values, errors -/

/-- The Go types the engine distinguishes.  bits is the strconv bit width
(reflect Type.Bits).  strct carries the field descriptors: enviro tag,
envopt tag, envdefault tag and field type.  hooked wraps a named type
whose pointer implements the ParseField interface; the id selects the
implementation in the World. -/
inductive Ty where
  | str
  | int (bits : Nat)
  | duration
  | uint (bits : Nat)
  | float (bits : Nat)
  | bool
  | timeTime
  | timeLocation
  | urlURL
  | osFile
  | netIP
  | hardwareAddr
  | mapTy
  | slice (elem : Ty)
  | ptr (elem : Ty)
  | strct (fields : List (String × String × String × Ty))
  | hooked (id : Nat) (base : Ty)

/-- A field descriptor: enviro tag, envopt tag, envdefault tag, type. -/
abbrev FieldD := String × String × String × Ty

/-- Modelled Go values.  vExt carries values produced by external
collaborators (times, urls, locations, files, decoded json/yaml, parsed
addresses). -/
inductive Value where
  | vStr (s : String)
  | vInt (n : Int)
  | vUint (n : Nat)
  | vFloat (lit : String)
  | vBool (b : Bool)
  | vSlice (xs : List Value)
  | vStruct (fs : List Value)
  | vPtr (p : Option Value)
  | vMapNil
  | vExt (tag : String)

/-- The errors the engine can return.  parseFailure is the
"failed to parse environment variable KEY: cause" wrapper. -/
inductive GoErr where
  | invalidTarget
  | missingRequired (key : String)
  | emptyRequired (key : String)
  | parseFailure (key : String) (cause : GoErr)
  | unsupportedFieldType
  | unsupportedSliceElem
  | unsupportedFormat (opt : String)
  | parseIntErr (lit : String)
  | parseUintErr (lit : String)
  | parseFloatErr (lit : String)
  | parseBoolErr (lit : String)
  | invalidIP
  | external (msg : String)
deriving DecidableEq

/-- The environment snapshot: an association list, looked up by exact key
(os.LookupEnv). -/
abbrev Env := List (String × String)

def lookupEnv (env : Env) (k : String) : Option String :=
  (env.find? (fun p => p.1 == k)).map (fun p => p.2)

/-- External collaborators used as black boxes: the time, url, json, yaml,
os and net library functions, and the user-supplied ParseField
implementations (selected by the id of Ty.hooked; the hook receives the
current receiver value and the raw string). -/
structure World where
  hook : Nat → Value → String → Except GoErr Value
  parseDuration : String → Except GoErr Int
  loadLocation : String → Except GoErr Value
  parseInLocation : String → String → Value → Except GoErr Value
  parseDateWith : String → Value → Except GoErr Value
  parseURL : String → Except GoErr Value
  openFile : String → Nat → Nat → Except GoErr Value
  jsonDecode : String → Except GoErr Value
  yamlDecode : String → Except GoErr Value
  parseIP : String → Option Value
  parseMAC : String → Except GoErr Value

/-! ## Type observations -/

/-- reflect.Kind of a modelled type. -/
inductive Kind where
  | kStr | kInt | kUint | kFloat | kBool | kStruct | kSlice | kMap | kPtr
deriving DecidableEq

def kindOf : Ty → Kind
  | .str => .kStr
  | .int _ => .kInt
  | .duration => .kInt
  | .uint _ => .kUint
  | .float _ => .kFloat
  | .bool => .kBool
  | .timeTime => .kStruct
  | .timeLocation => .kStruct
  | .urlURL => .kStruct
  | .osFile => .kStruct
  | .strct _ => .kStruct
  | .netIP => .kSlice
  | .hardwareAddr => .kSlice
  | .slice _ => .kSlice
  | .mapTy => .kMap
  | .ptr _ => .kPtr
  | .hooked _ b => kindOf b

def isPtrTy : Ty → Bool
  | .ptr _ => true
  | _ => false

/-- Type.Elem() for a pointer; identity otherwise. -/
def derefTy : Ty → Ty
  | .ptr t => t
  | t => t

/-- The check target.Addr().Type().Implements(parserType): the id of the
ParseField implementation, when the type has one. -/
def hookOf : Ty → Option Nat
  | .hooked id _ => some id
  | _ => none

/-- Type.Bits() for the numeric kinds. -/
def bitsOf : Ty → Nat
  | .int b => b
  | .uint b => b
  | .float b => b
  | _ => 64

/-- The type identity test against reflect.TypeOf(net.IP(nil)). -/
def isNetIP : Ty → Bool
  | .netIP => true
  | _ => false

/-- The type identity test against reflect.TypeOf([]net.HardwareAddr(nil)),
exactly as written in the code: a slice of net.HardwareAddr. -/
def isSliceOfHW : Ty → Bool
  | .slice .hardwareAddr => true
  | _ => false

/-- Strip the ParseField wrappers off a type (reflect sees the named type's
underlying kind through them). -/
def unhook : Ty → Ty
  | .hooked _ b => unhook b
  | t => t

/-- The structural-field test of the traversal: a struct kind, or a pointer
kind whose element is of struct kind. -/
def structLike (ty : Ty) : Bool :=
  kindOf ty == .kStruct ||
    (match unhook ty with
     | .ptr t => kindOf t == .kStruct
     | _ => false)

/-- One more than the slice-nesting depth of a type; used as the recursion
budget of setSliceFieldD. -/
def tyDepth : Ty → Nat
  | .slice e => tyDepth e + 1
  | .ptr e => tyDepth e + 1
  | .hooked _ b => tyDepth b + 1
  | _ => 1

mutual
/-- The zero Value of a type (Go zero value). -/
def zeroVal : Ty → Value
  | .str => .vStr ""
  | .int _ => .vInt 0
  | .duration => .vInt 0
  | .uint _ => .vUint 0
  | .float _ => .vFloat "0"
  | .bool => .vBool false
  | .timeTime => .vExt "zero:time.Time"
  | .timeLocation => .vExt "zero:time.Location"
  | .urlURL => .vExt "zero:url.URL"
  | .osFile => .vExt "zero:os.File"
  | .netIP => .vSlice []
  | .hardwareAddr => .vSlice []
  | .mapTy => .vMapNil
  | .slice _ => .vSlice []
  | .ptr _ => .vPtr none
  | .strct fs => .vStruct (zeroVals fs)
  | .hooked _ b => zeroVal b

def zeroVals : List FieldD → List Value
  | [] => []
  | f :: fs => zeroVal f.2.2.2 :: zeroVals fs
end

/-- The exported fields iterated when the traversal recurses into a value
of struct kind.  The externally defined struct scalars (time.Time, ...)
have only unexported fields, which the loop skips; they contribute none. -/
def fieldsOfStruct : Ty → List FieldD
  | .strct fs => fs
  | .hooked _ b => fieldsOfStruct b
  | _ => []

/-! ## Scalar coercers -/

/-- setIntField: a time.Duration target (recognised by type identity) is
parsed as a duration; any other integer kind through strconv.ParseInt at
the declared bit width. -/
def setIntField (w : World) (ty : Ty) (value : String) : Except GoErr Value :=
  match ty with
  | .duration =>
      match w.parseDuration value with
      | .error e => .error e
      | .ok d => .ok (.vInt d)
  | _ =>
      match goParseInt value (bitsOf ty) with
      | some i => .ok (.vInt i)
      | none => .error (.parseIntErr value)

/-- setUintField: strconv.ParseUint at the declared bit width. -/
def setUintField (ty : Ty) (value : String) : Except GoErr Value :=
  match goParseUint value (bitsOf ty) with
  | some u => .ok (.vUint u)
  | none => .error (.parseUintErr value)

/-- setFloatField: strconv.ParseFloat at the declared bit width (the model
checks the decimal syntax; the width only scales the value). -/
def setFloatField (_ty : Ty) (value : String) : Except GoErr Value :=
  match goParseFloat value with
  | some lit => .ok (.vFloat lit)
  | none => .error (.parseFloatErr value)

/-- setBoolField: strconv.ParseBool. -/
def setBoolField (value : String) : Except GoErr Value :=
  match goParseBool value with
  | some b => .ok (.vBool b)
  | none => .error (.parseBoolErr value)

/-- setTimeField: resolve the location first (UTC when empty), then parse
with the explicit layout when one is present, otherwise through the
fallback-layout list (parseDateWith). -/
def setTimeField (w : World) (value format location : String) : Except GoErr Value :=
  match (if location != "" then w.loadLocation location else .ok (.vExt "UTC")) with
  | .error e => .error e
  | .ok loc =>
      if format != "" then w.parseInLocation format value loc
      else w.parseDateWith value loc

/-- setStructField: the four struct scalars recognised by type identity,
then the json/yaml format dispatch, then the unsupported-format failure
(with "-" standing for an absent option). -/
def setStructField (w : World) (ty : Ty) (value opt : String) : Except GoErr Value :=
  match ty with
  | .timeTime =>
      let fl := parseTimeFormatTag opt
      setTimeField w value fl.1 fl.2
  | .timeLocation => w.loadLocation value
  | .urlURL => w.parseURL value
  | .osFile =>
      let fp := parseFileFormatTag opt
      w.openFile value fp.1 fp.2
  | _ =>
      if opt == "json" then w.jsonDecode value
      else if opt == "yaml" then w.yamlDecode value
      else .error (.unsupportedFormat (if opt == "" then "-" else opt))

/-- setMapField: json/yaml dispatch only. -/
def setMapField (w : World) (value opt : String) : Except GoErr Value :=
  if opt == "json" then w.jsonDecode value
  else if opt == "yaml" then w.yamlDecode value
  else .error (.unsupportedFormat (if opt == "" then "-" else opt))

/-! ## Slice builder -/

/-- The per-element loop shared by the element cases of setSliceField:
coerce each element, wrapping in a fresh pointer when the element type is
a pointer, and fail on the first element error. -/
def elemLoop (p : String → Except GoErr Value) (isP : Bool) :
    List String → Except GoErr (List Value)
  | [] => .ok []
  | e :: es =>
      match p e with
      | .error err => .error err
      | .ok v =>
          match elemLoop p isP es with
          | .error err => .error err
          | .ok vs => .ok ((if isP then Value.vPtr (some v) else v) :: vs)

/-- The unsigned-element case of setSliceField, including both whole-value
guards exactly as the code orders them: the net.IP identity test on the
declared field type (replacing the field, no append), then the test of the
declared field type against []net.HardwareAddr, then the per-element loop
with trimmed elements. -/
def uintSliceCase (w : World) (fieldTy elemTy : Ty) (isP : Bool)
    (curElems : List Value) (elements : List String) (value : String) :
    Except GoErr Value :=
  if isNetIP fieldTy then
    match w.parseIP value with
    | none => .error .invalidIP
    | some ip => .ok ip
  else if isSliceOfHW fieldTy then
    w.parseMAC value
  else
    match elemLoop (fun e => setUintField elemTy (trimSpace e)) isP elements with
    | .error er => .error er
    | .ok xs => .ok (.vSlice (curElems ++ xs))

/-- setSliceField, indexed by a recursion budget that set at tyDepth always
suffices (the zero branch is unreachable from setField and setSliceField).
Faithful to the code: split the raw value on commas; compute the element
type, dereferencing one pointer level; delegate every element to the
ParseField hook when the element type has one (untrimmed elements, fresh
zero receivers); otherwise dispatch on the element kind — string, int,
uint, float and bool elements are trimmed, slice and struct elements are
passed verbatim; the result is appended to the current field value
(reflect.AppendSlice), except for the whole-value net.IP branch. -/
def setSliceFieldD : Nat → World → Ty → Value → String → String → Except GoErr Value
  | 0, _, _, _, _, _ => .error .unsupportedFieldType
  | d + 1, w, fieldTy, cur, value, opt =>
    let elements := splitComma value
    let curElems := match cur with
                    | .vSlice l => l
                    | _ => []
    match fieldTy with
    | .netIP => uintSliceCase w .netIP (.uint 8) false curElems elements value
    | .hardwareAddr => uintSliceCase w .hardwareAddr (.uint 8) false curElems elements value
    | .slice elemT0 =>
      let isP := isPtrTy elemT0
      let elemTy := derefTy elemT0
      match hookOf elemTy with
      | some id =>
          match elemLoop (fun e => w.hook id (zeroVal elemTy) e) isP elements with
          | .error er => .error er
          | .ok xs => .ok (.vSlice (curElems ++ xs))
      | none =>
        match kindOf elemTy with
        | .kStr =>
            match elemLoop (fun e => .ok (.vStr (trimSpace e))) isP elements with
            | .error er => .error er
            | .ok xs => .ok (.vSlice (curElems ++ xs))
        | .kInt =>
            match elemLoop (fun e => setIntField w elemTy (trimSpace e)) isP elements with
            | .error er => .error er
            | .ok xs => .ok (.vSlice (curElems ++ xs))
        | .kUint => uintSliceCase w fieldTy elemTy isP curElems elements value
        | .kFloat =>
            match elemLoop (fun e => setFloatField elemTy (trimSpace e)) isP elements with
            | .error er => .error er
            | .ok xs => .ok (.vSlice (curElems ++ xs))
        | .kBool =>
            match elemLoop (fun e => setBoolField (trimSpace e)) isP elements with
            | .error er => .error er
            | .ok xs => .ok (.vSlice (curElems ++ xs))
        | .kSlice =>
            match elemLoop (fun e => setSliceFieldD d w elemTy (zeroVal elemTy) e opt) isP elements with
            | .error er => .error er
            | .ok xs => .ok (.vSlice (curElems ++ xs))
        | .kStruct =>
            match elemLoop (fun e => setStructField w elemTy e opt) isP elements with
            | .error er => .error er
            | .ok xs => .ok (.vSlice (curElems ++ xs))
        | _ => .error .unsupportedSliceElem
    | _ => .error .unsupportedSliceElem

/-- setSliceField at an always-sufficient budget. -/
def setSliceField (w : World) (fieldTy : Ty) (cur : Value) (value opt : String) :
    Except GoErr Value :=
  setSliceFieldD (tyDepth fieldTy) w fieldTy cur value opt

/-! ## Field dispatcher -/

/-- The conversion receiver of setField: the pointed-to value for a non-nil
pointer field, a fresh zero of the element type for a nil pointer, the
field itself otherwise. -/
def targetOf (ty : Ty) (cur : Value) : Value :=
  if isPtrTy ty then
    match cur with
    | .vPtr (some x) => x
    | _ => zeroVal (derefTy ty)
  else cur

/-- The final assignment of setField: a pointer field is set to point at
the converted value, a plain field is set to it. -/
def wrapBack (ty : Ty) (v : Value) : Value :=
  if isPtrTy ty then .vPtr (some v) else v

/-- setField: compute the element type and receiver; delegate everything to
the ParseField hook when the element type implements it (the goto shortcut
in the code); otherwise dispatch on the element kind; then write the
result back through wrapBack. -/
def setField (w : World) (ty : Ty) (cur : Value) (value opt : String) :
    Except GoErr Value :=
  let elemType := derefTy ty
  let res : Except GoErr Value :=
    match hookOf elemType with
    | some id => w.hook id (targetOf ty cur) value
    | none =>
      match kindOf elemType with
      | .kStr => .ok (.vStr value)
      | .kInt => setIntField w elemType value
      | .kUint => setUintField elemType value
      | .kFloat => setFloatField elemType value
      | .kBool => setBoolField value
      | .kStruct => setStructField w elemType value opt
      | .kSlice => setSliceFieldD (tyDepth elemType) w elemType (targetOf ty cur) value opt
      | .kMap => setMapField w value opt
      | .kPtr => .error .unsupportedFieldType
  match res with
  | .error e => .error e
  | .ok v => .ok (wrapBack ty v)

/-! ## Traversal -/

/-- The resolved key of a leaf field before upper-casing: the tag key,
prefixed with the running prefix and an underscore unless omitprefix is
set or the prefix is empty. -/
def resolveKey (pfx tag : String) : String :=
  let d := parseTag tag
  if !d.omitPfx && pfx != "" then pfx ++ "_" ++ d.key else d.key

/-- The field values of a struct-kind value (its zero values when the
value is not a struct, which cannot arise for well-typed inputs). -/
def structInner (nf : List FieldD) : Value → List Value
  | .vStruct l => l
  | _ => zeroVals nf

/-- The field values behind a pointer-to-struct value, instantiating a nil
pointer to the zero struct. -/
def ptrStructInner (nf : List FieldD) : Value → List Value
  | .vPtr (some (.vStruct l)) => l
  | _ => zeroVals nf

/-- The pointee of a pointer value, instantiating nil to the zero value of
the pointee type. -/
def ptrInner (t : Ty) : Value → Value
  | .vPtr (some x) => x
  | _ => zeroVal t

/-- The leaf branch of the field loop: resolve the key, look it up
upper-cased, apply the required checks, substitute the envdefault for an
empty value, and coerce via setField, wrapping a coercion error with the
resolved key; a missing optional key with no default skips the field. -/
def leafStep (w : World) (env : Env) (pfx tag opt dfl : String) (ty : Ty) (v : Value) :
    Value × Option GoErr :=
  let kUp := toUpperStr (resolveKey pfx tag)
  match lookupEnv env kUp with
  | none =>
      if (parseTag tag).required then (v, some (.missingRequired kUp))
      else if dfl != "" then
        match setField w ty v dfl opt with
        | .ok v1 => (v1, none)
        | .error e => (v, some (.parseFailure kUp e))
      else (v, none)
  | some s =>
      if (parseTag tag).required && s == "" then (v, some (.emptyRequired kUp))
      else
        match setField w ty v (if s == "" then dfl else s) opt with
        | .ok v1 => (v1, none)
        | .error e => (v, some (.parseFailure kUp e))

mutual
/-- The field loop of ParseEnvWithPrefix over the declared fields and their
current values, fail-fast: the first field error stops the walk; fields
already assigned keep their new values, later fields keep their old ones.
An empty tag or a "nested:" tag routes the field to the structural branch
(nestedStep); every other tag routes it to the leaf branch (leafStep). -/
def loadStruct (w : World) (env : Env) (pfx : String) :
    List FieldD → List Value → List Value × Option GoErr
  | [], vs => (vs, none)
  | _ :: _, [] => ([], none)
  | f :: fs, v :: vs =>
    let st := if f.1 == "" || strHasPre f.1 "nested:"
              then nestedStep w env pfx f.1 f.2.2.2 v
              else leafStep w env pfx f.1 f.2.1 f.2.2.1 f.2.2.2 v
    match st with
    | (v1, none) =>
        let r := loadStruct w env pfx fs vs
        (v1 :: r.1, r.2)
    | (v1, some e) => (v1 :: vs, some e)

/-- The structural branch of the field loop: a struct recurses with the
extended prefix; a named (ParseField-implementing) type is traversed at
its underlying type; a pointer is handled by ptrNestedStep; every
non-struct shape is skipped silently, its value unchanged. -/
def nestedStep (w : World) (env : Env) (pfx tag : String) :
    Ty → Value → Value × Option GoErr
  | .strct nf, v =>
      let envPfx := (if pfx != "" then pfx ++ "_" else "") ++ trimPre "nested:" tag
      let r := loadStruct w env envPfx nf (structInner nf v)
      (.vStruct r.1, r.2)
  | .hooked _ b, v => nestedStep w env pfx tag b v
  | .ptr t, v =>
      let envPfx := (if pfx != "" then pfx ++ "_" else "") ++ trimPre "nested:" tag
      ptrNestedStep w env envPfx t v
  | _, v => (v, none)

/-- The pointer case of the structural branch: a struct pointee is
instantiated when nil and recursed into; an externally defined struct
pointee is instantiated but contributes no exported fields; a non-struct
pointee is skipped entirely (no instantiation). -/
def ptrNestedStep (w : World) (env : Env) (envPfx : String) :
    Ty → Value → Value × Option GoErr
  | .strct nf, v =>
      let r := loadStruct w env envPfx nf (ptrStructInner nf v)
      (.vPtr (some (.vStruct r.1)), r.2)
  | .hooked _ b, v => ptrNestedStep w env envPfx b v
  | t, v =>
      if kindOf t == .kStruct then (.vPtr (some (ptrInner t v)), none)
      else (v, none)
end

/-- One field of the loop: the branch selection made by loadStruct, as a
single function (definitionally what loadStruct inlines per field). -/
def procField (w : World) (env : Env) (pfx tag opt dfl : String) (ty : Ty) (v : Value) :
    Value × Option GoErr :=
  if tag == "" || strHasPre tag "nested:" then nestedStep w env pfx tag ty v
  else leafStep w env pfx tag opt dfl ty v

/-- The argument of ParseEnvWithPrefix, as reflect sees it: a non-pointer
value, a nil pointer, or a non-nil pointer with its pointee type and
value. -/
inductive GoAny where
  | notPtr (v : Value)
  | nilPtr (t : Ty)
  | ptrTo (t : Ty) (v : Value)

/-- The observable outcome of a call: a return with the updated pointee and
an optional error, or a runtime panic. -/
inductive Outcome where
  | ret (v : Value) (e : Option GoErr)
  | panic (msg : String)

/-- ParseEnvWithPrefix: the guard rejects non-pointers and nil pointers
("config must be a pointer to a struct"); then val.Elem().NumField() is
taken, which panics when the pointee is not of struct kind; otherwise the
field loop runs. -/
def parseEnvWithPfx (w : World) (env : Env) (config : GoAny) (pfx : String) : Outcome :=
  match config with
  | .notPtr v => .ret v (some .invalidTarget)
  | .nilPtr _ => .ret (.vPtr none) (some .invalidTarget)
  | .ptrTo t v =>
      if kindOf t == .kStruct then
        let fs := fieldsOfStruct t
        let vs := match v with
                  | .vStruct l => l
                  | _ => zeroVals fs
        let r := loadStruct w env pfx fs vs
        .ret (match v with
              | .vStruct _ => .vStruct r.1
              | _ => v) r.2
      else .panic "reflect: NumField of non-struct type"

/-- The engine: it owns the base prefix set by SetEnvPrefix. -/
structure EnviroEngine where
  basePfx : String

/-- ParseEnv: ParseEnvWithPrefix at the engine's base prefix. -/
def parseEnv (w : World) (env : Env) (e : EnviroEngine) (config : GoAny) : Outcome :=
  parseEnvWithPfx w env config e.basePfx

/-! ## A concrete World for witnesses -/

/-- A trivial instantiation of the external collaborators, used to evaluate
the engine on concrete inputs. -/
def wUnit : World where
  hook := fun _ _ s => .ok (.vStr s)
  parseDuration := fun _ => .ok 0
  loadLocation := fun s => .ok (.vExt ("loc:" ++ s))
  parseInLocation := fun _ s _ => .ok (.vExt ("time:" ++ s))
  parseDateWith := fun s _ => .ok (.vExt ("time:" ++ s))
  parseURL := fun s => .ok (.vExt ("url:" ++ s))
  openFile := fun s _ _ => .ok (.vExt ("file:" ++ s))
  jsonDecode := fun s => .ok (.vExt ("json:" ++ s))
  yamlDecode := fun s => .ok (.vExt ("yaml:" ++ s))
  parseIP := fun s => some (.vExt ("ip:" ++ s))
  parseMAC := fun s => .ok (.vExt ("mac:" ++ s))

/-- The shape of every error the field loop can return: a missing-required,
empty-required or key-wrapped conversion failure, each naming an
upper-cased resolved key. -/
def fieldErrShape (e : GoErr) : Prop :=
  (∃ k, e = .missingRequired (toUpperStr k)) ∨
    (∃ k, e = .emptyRequired (toUpperStr k)) ∨
      (∃ k c, e = .parseFailure (toUpperStr k) c)

-- Weights for induction over the nested field descriptors.
mutual
/-- Weight of a type, for induction over the nested field descriptors. -/
def tyW : Ty → Nat
  | .slice e => tyW e + 1
  | .ptr e => tyW e + 1
  | .hooked _ b => tyW b + 1
  | .strct fs => fdsW fs + 1
  | _ => 1

def fdsW : List FieldD → Nat
  | [] => 1
  | f :: fs => tyW f.2.2.2 + fdsW fs + 1
end

/-! ## Helper lemmas -/

theorem isPre_append (l r : List Char) : isPre l (l ++ r) = true := by
  induction l with
  | nil => rfl
  | cons c cs ih => simp [isPre, ih]

theorem strHasPre_append (p r : String) : strHasPre (p ++ r) p = true := by
  have h := isPre_append p.data r.data
  simpa [strHasPre, String.data_append] using h

theorem trimPre_append (p r : String) : trimPre p (p ++ r) = r := by
  rw [trimPre, if_pos (strHasPre_append p r), String.data_append, List.drop_left]

theorem append_underscore_ne_empty (a b : String) : ((a ++ "_") ++ b == "") = false := by
  have h : (a ++ "_") ++ b ≠ "" := by
    intro h
    have h2 := congrArg String.data h
    simp [String.data_append] at h2
  simpa [beq_eq_false_iff_ne] using h

/-- A tag that is a bare comma-free, whitespace-free key parses to that key
with no flags. -/
theorem parseTag_plain (key : String) (hkc : splitComma key = [key])
    (hkt : trimSpace key = key) :
    parseTag key = { key := key, omitPfx := false, required := false } := by
  simp [parseTag, hkc, parseTagParts, hkt]

/-- The resolved key of a bare key under a non-empty prefix. -/
theorem resolveKey_plain (pfx2 key : String) (hkc : splitComma key = [key])
    (hkt : trimSpace key = key) (hp2 : (pfx2 == "") = false) :
    resolveKey pfx2 key = pfx2 ++ "_" ++ key := by
  simp [resolveKey, parseTag_plain key hkc hkt, bne, hp2]

/-- A cons step of the field loop, through procField. -/
theorem loadStruct_cons (w : World) (env : Env) (pfx : String) (f : FieldD)
    (fs : List FieldD) (v : Value) (vs : List Value) :
    loadStruct w env pfx (f :: fs) (v :: vs) =
      match procField w env pfx f.1 f.2.1 f.2.2.1 f.2.2.2 v with
      | (v1, none) =>
          let r := loadStruct w env pfx fs vs
          (v1 :: r.1, r.2)
      | (v1, some e) => (v1 :: vs, some e) := rfl

theorem tyW_pos (ty : Ty) : 1 ≤ tyW ty := by
  cases ty <;> simp [tyW]

theorem fdsW_pos (fs : List FieldD) : 1 ≤ fdsW fs := by
  cases fs <;> simp [fdsW]

/-- The pointer case of the structural branch on a non-struct pointee:
skipped silently, value unchanged. -/
theorem ptrNestedStep_nonstruct (w : World) (env : Env) (envPfx : String) :
    ∀ (n : Nat) (t : Ty) (v : Value), tyW t ≤ n → (kindOf t == Kind.kStruct) = false →
      ptrNestedStep w env envPfx t v = (v, none) := by
  intro n
  induction n with
  | zero =>
      intro t v hW _
      have := tyW_pos t
      omega
  | succ n ih =>
      intro t v hW hk
      cases t with
      | strct nf => simp [kindOf] at hk
      | hooked id b =>
          have hb : (kindOf b == Kind.kStruct) = false := hk
          have hWb : tyW b ≤ n := by
            simp only [tyW] at hW
            omega
          exact ih b v hWb hb
      | timeTime => simp [kindOf] at hk
      | timeLocation => simp [kindOf] at hk
      | urlURL => simp [kindOf] at hk
      | osFile => simp [kindOf] at hk
      | str => show (if (kindOf .str == Kind.kStruct) = true then _ else _) = _; simp [kindOf]
      | int b2 => show (if (kindOf (.int b2) == Kind.kStruct) = true then _ else _) = _; simp [kindOf]
      | duration => show (if (kindOf .duration == Kind.kStruct) = true then _ else _) = _; simp [kindOf]
      | uint b2 => show (if (kindOf (.uint b2) == Kind.kStruct) = true then _ else _) = _; simp [kindOf]
      | float b2 => show (if (kindOf (.float b2) == Kind.kStruct) = true then _ else _) = _; simp [kindOf]
      | bool => show (if (kindOf .bool == Kind.kStruct) = true then _ else _) = _; simp [kindOf]
      | netIP => show (if (kindOf .netIP == Kind.kStruct) = true then _ else _) = _; simp [kindOf]
      | hardwareAddr => show (if (kindOf .hardwareAddr == Kind.kStruct) = true then _ else _) = _; simp [kindOf]
      | mapTy => show (if (kindOf .mapTy == Kind.kStruct) = true then _ else _) = _; simp [kindOf]
      | slice e => show (if (kindOf (.slice e) == Kind.kStruct) = true then _ else _) = _; simp [kindOf]
      | ptr e => show (if (kindOf (.ptr e) == Kind.kStruct) = true then _ else _) = _; simp [kindOf]

/-- The structural branch on a shape that is not struct-like: the field is
skipped silently, its value unchanged, no error. -/
theorem nestedStep_nonstruct (w : World) (env : Env) (pfx tag : String) :
    ∀ (n : Nat) (ty : Ty) (v : Value), tyW ty ≤ n → structLike ty = false →
      nestedStep w env pfx tag ty v = (v, none) := by
  intro n
  induction n with
  | zero =>
      intro ty v hW _
      have := tyW_pos ty
      omega
  | succ n ih =>
      intro ty v hW hs
      cases ty with
      | strct nf => simp [structLike, kindOf] at hs
      | hooked id b =>
          have hsb : structLike b = false := hs
          have hWb : tyW b ≤ n := by
            simp only [tyW] at hW
            omega
          exact ih b v hWb hsb
      | timeTime => simp [structLike, kindOf] at hs
      | timeLocation => simp [structLike, kindOf] at hs
      | urlURL => simp [structLike, kindOf] at hs
      | osFile => simp [structLike, kindOf] at hs
      | ptr t =>
          have hk : (kindOf t == Kind.kStruct) = false := by
            simp only [structLike, kindOf, unhook] at hs
            simpa using hs
          have hWt : tyW t ≤ n := by
            simp only [tyW] at hW
            omega
          exact ptrNestedStep_nonstruct w env _ n t v hWt hk
      | str => rfl
      | int b2 => rfl
      | duration => rfl
      | uint b2 => rfl
      | float b2 => rfl
      | bool => rfl
      | netIP => rfl
      | hardwareAddr => rfl
      | mapTy => rfl
      | slice e => rfl

/-- The procField form of the silent skip of a nested-tagged non-struct
field. -/
theorem procField_nested_nonstruct (w : World) (env : Env) (pfx tag opt dfl : String)
    (ty : Ty) (v : Value)
    (ht : strHasPre tag "nested:" = true)
    (hs : structLike ty = false) :
    procField w env pfx tag opt dfl ty v = (v, none) := by
  rw [procField, if_pos (by rw [ht]; simp)]
  exact nestedStep_nonstruct w env pfx tag (tyW ty) ty v le_rfl hs

/-- A leaf-tagged field goes through leafStep. -/
theorem procField_leaf (w : World) (env : Env) (pfx tag opt dfl : String)
    (ty : Ty) (v : Value)
    (h0 : (tag == "") = false) (ht : strHasPre tag "nested:" = false) :
    procField w env pfx tag opt dfl ty v = leafStep w env pfx tag opt dfl ty v := by
  rw [procField, if_neg]
  simp [h0, ht]

/-- The structural branch on a struct field, unfolded. -/
theorem nestedStep_strct (w : World) (env : Env) (pfx tag : String)
    (nf : List FieldD) (l : List Value) :
    nestedStep w env pfx tag (.strct nf) (.vStruct l) =
      (Value.vStruct (loadStruct w env
          ((if pfx != "" then pfx ++ "_" else "") ++ trimPre "nested:" tag) nf l).1,
       (loadStruct w env
          ((if pfx != "" then pfx ++ "_" else "") ++ trimPre "nested:" tag) nf l).2) := rfl

/-- In Go, an existing non-empty value wins over the default and an empty
one is replaced by it; with an empty default both cases collapse to the
value itself. -/
theorem if_empty_default (s : String) : (if s == "" then ("" : String) else s) = s := by
  by_cases h : s = ""
  · simp [h]
  · simp [h]

/-- Prefix decomposition of the field loop: a successfully processed
prefix of fields keeps its assigned values when the loop continues into
further fields, and the remainder behaves as if run alone — the no-
rollback half of the propagation policy. -/
theorem loadStruct_append_of_ok (w : World) (env : Env) (pfx : String) :
    ∀ (fs1 : List FieldD) (vs1 : List Value) (fs2 : List FieldD) (vs2 : List Value)
      (r1 : List Value),
      fs1.length = vs1.length →
      loadStruct w env pfx fs1 vs1 = (r1, none) →
      loadStruct w env pfx (fs1 ++ fs2) (vs1 ++ vs2)
        = (r1 ++ (loadStruct w env pfx fs2 vs2).1, (loadStruct w env pfx fs2 vs2).2) := by
  intro fs1
  induction fs1 with
  | nil =>
      intro vs1 fs2 vs2 r1 hlen hok
      cases vs1 with
      | nil =>
          have h1 : (([] : List Value), (none : Option GoErr)) = (r1, none) := hok
          injection h1 with h2 h3
          subst h2
          simp
      | cons hd tl => simp at hlen
  | cons f fs ih =>
      intro vs1 fs2 vs2 r1 hlen hok
      cases vs1 with
      | nil => simp at hlen
      | cons v vs =>
          rw [loadStruct_cons] at hok
          rcases hpf : procField w env pfx f.1 f.2.1 f.2.2.1 f.2.2.2 v with ⟨v1, eo⟩
          rw [hpf] at hok
          cases eo with
          | some e => simp at hok
          | none =>
              simp only at hok
              injection hok with h1 h2
              have hok3 : loadStruct w env pfx fs vs
                  = ((loadStruct w env pfx fs vs).1, none) := by
                rw [← h2]
              have hlen2 : fs.length = vs.length := by simpa using hlen
              have hrec := ih vs fs2 vs2 (loadStruct w env pfx fs vs).1 hlen2 hok3
              rw [List.cons_append, List.cons_append, loadStruct_cons, hpf]
              simp only [hrec, ← h1, List.cons_append]

/-- Every error of the leaf branch names the upper-cased resolved key:
missing-required, empty-required, or the key-wrapped conversion
failure. -/
theorem leafStep_err_shape (w : World) (env : Env) (pfx tag opt dfl : String)
    (ty : Ty) (v : Value) (e : GoErr)
    (h : (leafStep w env pfx tag opt dfl ty v).2 = some e) : fieldErrShape e := by
  simp only [leafStep] at h
  split at h
  · split at h
    · simp at h
      subst h
      exact Or.inl ⟨resolveKey pfx tag, rfl⟩
    · split at h
      · split at h
        · simp at h
        · simp at h
          subst h
          exact Or.inr (Or.inr ⟨resolveKey pfx tag, _, rfl⟩)
      · simp at h
  · split at h
    · simp at h
      subst h
      exact Or.inr (Or.inl ⟨resolveKey pfx tag, rfl⟩)
    · split at h
      · simp at h
      · simp at h
        subst h
        exact Or.inr (Or.inr ⟨resolveKey pfx tag, _, rfl⟩)

/-- Every error that escapes the field loop, its structural branch or its
pointer case is field-shaped, by induction on the nesting weight. -/
theorem errKey_aux (w : World) (env : Env) : ∀ (n : Nat),
    (∀ (fs : List FieldD), fdsW fs ≤ n → ∀ (pfx : String) (vs : List Value) (e : GoErr),
        (loadStruct w env pfx fs vs).2 = some e → fieldErrShape e) ∧
    (∀ (ty : Ty), tyW ty ≤ n → ∀ (pfx tag : String) (v : Value) (e : GoErr),
        (nestedStep w env pfx tag ty v).2 = some e → fieldErrShape e) ∧
    (∀ (ty : Ty), tyW ty ≤ n → ∀ (envPfx : String) (v : Value) (e : GoErr),
        (ptrNestedStep w env envPfx ty v).2 = some e → fieldErrShape e) := by
  intro n
  induction n with
  | zero =>
      refine ⟨fun fs h => absurd h ?_, fun ty h => absurd h ?_, fun ty h => absurd h ?_⟩
      · have := fdsW_pos fs
        omega
      · have := tyW_pos ty
        omega
      · have := tyW_pos ty
        omega
  | succ n ih =>
      obtain ⟨ihL, ihN, ihP⟩ := ih
      refine ⟨?_, ?_, ?_⟩
      · intro fs hW pfx vs e h
        cases fs with
        | nil =>
            have h0 : loadStruct w env pfx [] vs = (vs, none) := rfl
            rw [h0] at h
            simp at h
        | cons f fs2 =>
            cases vs with
            | nil =>
                have h0 : loadStruct w env pfx (f :: fs2) [] = ([], none) := rfl
                rw [h0] at h
                simp at h
            | cons v vs2 =>
                rw [loadStruct_cons] at h
                rcases hpf : procField w env pfx f.1 f.2.1 f.2.2.1 f.2.2.2 v with ⟨v1, eo⟩
                rw [hpf] at h
                cases eo with
                | none =>
                    simp only at h
                    refine ihL fs2 ?_ pfx vs2 e h
                    have := tyW_pos f.2.2.2
                    simp only [fdsW] at hW
                    omega
                | some e0 =>
                    simp only at h
                    injection h with h1
                    subst h1
                    rw [procField] at hpf
                    split at hpf
                    · refine ihN f.2.2.2 ?_ pfx f.1 v e0 ?_
                      · have := fdsW_pos fs2
                        simp only [fdsW] at hW
                        omega
                      · rw [hpf]
                    · refine leafStep_err_shape w env pfx f.1 f.2.1 f.2.2.1 f.2.2.2 v e0 ?_
                      rw [hpf]
      · intro ty hW pfx tag v e h
        cases ty with
        | strct nf =>
            have h0 : (nestedStep w env pfx tag (.strct nf) v).2
                = (loadStruct w env
                    ((if pfx != "" then pfx ++ "_" else "") ++ trimPre "nested:" tag) nf
                    (structInner nf v)).2 := rfl
            rw [h0] at h
            refine ihL nf ?_ _ _ e h
            simp only [tyW] at hW
            omega
        | hooked id b =>
            refine ihN b ?_ pfx tag v e h
            simp only [tyW] at hW
            omega
        | ptr t =>
            refine ihP t ?_ _ v e h
            simp only [tyW] at hW
            omega
        | str =>
            rw [show (nestedStep w env pfx tag Ty.str v).2 = none from rfl] at h
            simp at h
        | int b2 =>
            rw [show (nestedStep w env pfx tag (Ty.int b2) v).2 = none from rfl] at h
            simp at h
        | duration =>
            rw [show (nestedStep w env pfx tag Ty.duration v).2 = none from rfl] at h
            simp at h
        | uint b2 =>
            rw [show (nestedStep w env pfx tag (Ty.uint b2) v).2 = none from rfl] at h
            simp at h
        | float b2 =>
            rw [show (nestedStep w env pfx tag (Ty.float b2) v).2 = none from rfl] at h
            simp at h
        | bool =>
            rw [show (nestedStep w env pfx tag Ty.bool v).2 = none from rfl] at h
            simp at h
        | timeTime =>
            rw [show (nestedStep w env pfx tag Ty.timeTime v).2 = none from rfl] at h
            simp at h
        | timeLocation =>
            rw [show (nestedStep w env pfx tag Ty.timeLocation v).2 = none from rfl] at h
            simp at h
        | urlURL =>
            rw [show (nestedStep w env pfx tag Ty.urlURL v).2 = none from rfl] at h
            simp at h
        | osFile =>
            rw [show (nestedStep w env pfx tag Ty.osFile v).2 = none from rfl] at h
            simp at h
        | netIP =>
            rw [show (nestedStep w env pfx tag Ty.netIP v).2 = none from rfl] at h
            simp at h
        | hardwareAddr =>
            rw [show (nestedStep w env pfx tag Ty.hardwareAddr v).2 = none from rfl] at h
            simp at h
        | mapTy =>
            rw [show (nestedStep w env pfx tag Ty.mapTy v).2 = none from rfl] at h
            simp at h
        | slice e2 =>
            rw [show (nestedStep w env pfx tag (Ty.slice e2) v).2 = none from rfl] at h
            simp at h
      · intro ty hW envPfx v e h
        cases ty with
        | strct nf =>
            have h0 : (ptrNestedStep w env envPfx (.strct nf) v).2
                = (loadStruct w env envPfx nf (ptrStructInner nf v)).2 := rfl
            rw [h0] at h
            refine ihL nf ?_ _ _ e h
            simp only [tyW] at hW
            omega
        | hooked id b =>
            refine ihP b ?_ envPfx v e h
            simp only [tyW] at hW
            omega
        | str =>
            rw [show (ptrNestedStep w env envPfx Ty.str v).2 = none from rfl] at h
            simp at h
        | int b2 =>
            rw [show (ptrNestedStep w env envPfx (Ty.int b2) v).2 = none from rfl] at h
            simp at h
        | duration =>
            rw [show (ptrNestedStep w env envPfx Ty.duration v).2 = none from rfl] at h
            simp at h
        | uint b2 =>
            rw [show (ptrNestedStep w env envPfx (Ty.uint b2) v).2 = none from rfl] at h
            simp at h
        | float b2 =>
            rw [show (ptrNestedStep w env envPfx (Ty.float b2) v).2 = none from rfl] at h
            simp at h
        | bool =>
            rw [show (ptrNestedStep w env envPfx Ty.bool v).2 = none from rfl] at h
            simp at h
        | timeTime =>
            rw [show (ptrNestedStep w env envPfx Ty.timeTime v).2 = none from rfl] at h
            simp at h
        | timeLocation =>
            rw [show (ptrNestedStep w env envPfx Ty.timeLocation v).2 = none from rfl] at h
            simp at h
        | urlURL =>
            rw [show (ptrNestedStep w env envPfx Ty.urlURL v).2 = none from rfl] at h
            simp at h
        | osFile =>
            rw [show (ptrNestedStep w env envPfx Ty.osFile v).2 = none from rfl] at h
            simp at h
        | netIP =>
            rw [show (ptrNestedStep w env envPfx Ty.netIP v).2 = none from rfl] at h
            simp at h
        | hardwareAddr =>
            rw [show (ptrNestedStep w env envPfx Ty.hardwareAddr v).2 = none from rfl] at h
            simp at h
        | mapTy =>
            rw [show (ptrNestedStep w env envPfx Ty.mapTy v).2 = none from rfl] at h
            simp at h
        | slice e2 =>
            rw [show (ptrNestedStep w env envPfx (Ty.slice e2) v).2 = none from rfl] at h
            simp at h
        | ptr t =>
            rw [show (ptrNestedStep w env envPfx (Ty.ptr t) v).2 = none from rfl] at h
            simp at h

/-! ## Claim theorems -/

/-- Claim C2 (code bug evidence).  The guard of ParseEnvWithPrefix rejects
only non-pointers and nil pointers with the invalid-target error; a
non-nil pointer to a non-struct value (here a pointer to an int) passes
the guard and the call panics at reflect NumField instead of returning
the invalid-target error, contradicting the function's own documentation
that it returns an error when the argument is not a pointer to a
struct. -/
theorem c2_ptr_to_int_panics (w : World) (env : Env) (pfx : String) :
    parseEnvWithPfx w env (.ptrTo (.int 64) (.vInt 5)) pfx
        = .panic "reflect: NumField of non-struct type" ∧
    parseEnvWithPfx w env (.notPtr (.vInt 5)) pfx
        = .ret (.vInt 5) (some .invalidTarget) ∧
    parseEnvWithPfx w env (.nilPtr (.strct [])) pfx
        = .ret (.vPtr none) (some .invalidTarget) :=
  ⟨rfl, rfl, rfl⟩

/-- Claim C3 counterexample.  Flag recognition in parseTag is not
order-independent: with three parts the code tests part 1 only against
"required" and part 2 only against "omitprefix", so the permutation
"key,omitprefix,required" parses differently from
"key,required,omitprefix" (it sets neither flag). -/
theorem c3_counterexample :
    ¬ (parseTag "key,omitprefix,required" = parseTag "key,required,omitprefix") := by
  decide

/-- Claim C3 (corrected).  Flag recognition is positional: with one flag
part, that part may be either flag; with two or more flag parts,
"required" is recognised only in part 1 and "omitprefix" only in part 2
(parts beyond the third are ignored).  Hence "key,required,omitprefix"
sets both flags while "key,omitprefix,required" sets neither. -/
theorem c3_flags_positional :
    (∀ p0 p1 p2 rest, parseTagParts (p0 :: p1 :: p2 :: rest) =
        { key := trimSpace p0
          omitPfx := trimSpace p2 == "omitprefix"
          required := trimSpace p1 == "required" }) ∧
    (∀ p0 p1, parseTagParts [p0, p1] =
        { key := trimSpace p0
          omitPfx := trimSpace p1 == "omitprefix"
          required := trimSpace p1 == "required" }) ∧
    parseTag "key,required,omitprefix" = { key := "key", omitPfx := true, required := true } ∧
    parseTag "key,omitprefix,required" = { key := "key", omitPfx := false, required := false } :=
  ⟨fun _ _ _ _ => rfl, fun _ _ => rfl, rfl, rfl⟩

/-- Claim C6.  When the element type of a field implements the ParseField
capability, setField delegates entirely to the hook: the hook receives
the exact raw string and the current receiver, and the field is set only
from the hook's result — every built-in path, including the struct
scalars such as time.Time, is bypassed (the result depends on no World
component other than the hook). -/
theorem c6_hook_priority (w : World) (ty : Ty) (id : Nat) (cur : Value)
    (value opt : String) (h : hookOf (derefTy ty) = some id) :
    setField w ty cur value opt =
      match w.hook id (targetOf ty cur) value with
      | .error e => .error e
      | .ok v => .ok (wrapBack ty v) := by
  simp only [setField, h]

/-- Witness for C6: a custom type over time.Time, exercised on the raw
RFC3339 string of the package's own test. -/
theorem c6_hook_priority_witness :
    hookOf (derefTy (.hooked 0 .timeTime)) = some 0 ∧
    setField wUnit (.hooked 0 .timeTime) (.vExt "zero:time.Time")
        "2023-01-02T15:04:05Z" "" =
      match wUnit.hook 0 (targetOf (.hooked 0 .timeTime) (.vExt "zero:time.Time"))
          "2023-01-02T15:04:05Z" with
      | .error e => .error e
      | .ok v => .ok (wrapBack (.hooked 0 .timeTime) v) :=
  ⟨rfl, c6_hook_priority wUnit (.hooked 0 .timeTime) 0 (.vExt "zero:time.Time")
      "2023-01-02T15:04:05Z" "" rfl⟩

/-- Claim C8 (code bug evidence).  A field declared exactly net.IP is
parsed as a single IP address from the whole raw string, before the
per-element loop.  But a field declared exactly net.HardwareAddr is NOT
whole-parsed as a MAC address: the code's guard compares the field type
against the slice type made of net.HardwareAddr inside the byte-element
branch, which that type can never reach, so the raw MAC string is split
on commas and each segment is fed to the uint8 parser, failing; the same
happens for a field declared as that slice type. -/
theorem c8_ip_whole_mac_broken (w : World) (cur : Value) (value opt : String) :
    (setSliceField w .netIP cur value opt =
      match w.parseIP value with
      | none => .error .invalidIP
      | some ip => .ok ip) ∧
    (setSliceField w .hardwareAddr cur "01:23:45:67:89:ab" opt
        = .error (.parseUintErr "01:23:45:67:89:ab")) ∧
    (setSliceField w (.slice .hardwareAddr) (.vSlice []) "01:23:45:67:89:ab" opt
        = .error (.parseUintErr "01:23:45:67:89:ab")) :=
  ⟨rfl, rfl, rfl⟩

/-- Claim C5 counterexample.  The claim says only text elements are
trimmed and that integer elements receive their split segments untrimmed;
but the code trims integer elements too: " 2" alone does not parse as an
int, yet the sequence "1, 2" parses to [1, 2]. -/
theorem c5_counterexample :
    setSliceField wUnit (.slice (.int 64)) (.vSlice []) "1, 2" ""
        = .ok (.vSlice [.vInt 1, .vInt 2]) ∧
    goParseInt " 2" 64 = none :=
  ⟨rfl, rfl⟩

/-- Claim C5 (corrected).  Sequence fields split the raw value on commas
and coerce each element by the element's own shape, with per-element
whitespace trimming applied to text, integer, unsigned, float and
boolean elements alike — not to text elements only. -/
theorem c5_trim_by_kind (w : World) (b : Nat) (cur0 : List Value)
    (value opt : String) :
    (setSliceField w (.slice .str) (.vSlice cur0) value opt =
      match elemLoop (fun e => .ok (.vStr (trimSpace e))) false (splitComma value) with
      | .error er => .error er
      | .ok xs => .ok (.vSlice (cur0 ++ xs))) ∧
    (setSliceField w (.slice (.int b)) (.vSlice cur0) value opt =
      match elemLoop (fun e => setIntField w (.int b) (trimSpace e)) false (splitComma value) with
      | .error er => .error er
      | .ok xs => .ok (.vSlice (cur0 ++ xs))) ∧
    (setSliceField w (.slice (.uint b)) (.vSlice cur0) value opt =
      match elemLoop (fun e => setUintField (.uint b) (trimSpace e)) false (splitComma value) with
      | .error er => .error er
      | .ok xs => .ok (.vSlice (cur0 ++ xs))) ∧
    (setSliceField w (.slice (.float b)) (.vSlice cur0) value opt =
      match elemLoop (fun e => setFloatField (.float b) (trimSpace e)) false (splitComma value) with
      | .error er => .error er
      | .ok xs => .ok (.vSlice (cur0 ++ xs))) ∧
    (setSliceField w (.slice .bool) (.vSlice cur0) value opt =
      match elemLoop (fun e => setBoolField (trimSpace e)) false (splitComma value) with
      | .error er => .error er
      | .ok xs => .ok (.vSlice (cur0 ++ xs))) :=
  ⟨rfl, rfl, rfl, rfl, rfl⟩

/-- Claim C4 counterexample.  A field tagged with a nesting directive whose
shape is an int is not reported as an error: the traversal returns no
error and leaves the field unchanged, even though a matching key is
set. -/
theorem c4_counterexample :
    loadStruct wUnit [("SUB_X", "1")] "" [("nested:sub", "", "", .int 64)] [.vInt 0]
      = ([.vInt 0], none) := rfl

/-- Claim C4 (corrected).  A field tagged with a nesting directive whose
shape is not a struct or pointer-to-struct is skipped silently: the
traversal continues with the remaining fields, the field's value is
unchanged, and no error is produced for it. -/
theorem c4_nested_nonstruct_skipped (w : World) (env : Env) (pfx tag opt dfl : String)
    (ty : Ty) (v : Value) (fs : List FieldD) (vs : List Value)
    (ht : strHasPre tag "nested:" = true)
    (hs : structLike ty = false) :
    loadStruct w env pfx ((tag, opt, dfl, ty) :: fs) (v :: vs)
      = (v :: (loadStruct w env pfx fs vs).1, (loadStruct w env pfx fs vs).2) := by
  rw [loadStruct_cons]
  rw [procField_nested_nonstruct w env pfx tag opt dfl ty v ht hs]

/-- Witness for C4: the counterexample field followed by an ordinary string
field, which is still processed. -/
theorem c4_nested_nonstruct_skipped_witness :
    strHasPre "nested:sub" "nested:" = true ∧
    structLike (.int 64) = false ∧
    loadStruct wUnit [("A", "x")] "" [("nested:sub", "", "", .int 64), ("a", "", "", .str)]
        [.vInt 0, .vStr ""]
      = (.vInt 0 :: (loadStruct wUnit [("A", "x")] "" [("a", "", "", .str)] [.vStr ""]).1,
         (loadStruct wUnit [("A", "x")] "" [("a", "", "", .str)] [.vStr ""]).2) :=
  ⟨by decide, by decide,
   c4_nested_nonstruct_skipped wUnit [("A", "x")] "" "nested:sub" "" "" (.int 64) (.vInt 0)
     [("a", "", "", .str)] [.vStr ""] (by decide) (by decide)⟩

/-- Claim C1 counterexample.  A required field whose key is absent fails
with the missing-required error even though a non-empty default ("8080")
is present; the claim says a present default satisfies the required
constraint and no such failure occurs. -/
theorem c1_counterexample :
    loadStruct wUnit [] "" [("port,required", "", "8080", .int 64)] [.vInt 0]
      = ([.vInt 0], some (.missingRequired "PORT")) := rfl

/-- Claim C1 (corrected).  For a required leaf field, an absent key fails
with the missing-required error and a present-but-empty value fails with
the empty-required error, in both cases regardless of the default tag
(which is consulted only after the required checks); defaults satisfy
only optional fields. -/
theorem c1_required_ignores_default (w : World) (env : Env) (pfx tag opt dfl : String)
    (ty : Ty) (v : Value) (fs : List FieldD) (vs : List Value)
    (h0 : (tag == "") = false)
    (ht : strHasPre tag "nested:" = false)
    (hreq : (parseTag tag).required = true) :
    (lookupEnv env (toUpperStr (resolveKey pfx tag)) = none →
      loadStruct w env pfx ((tag, opt, dfl, ty) :: fs) (v :: vs)
        = (v :: vs, some (.missingRequired (toUpperStr (resolveKey pfx tag))))) ∧
    (lookupEnv env (toUpperStr (resolveKey pfx tag)) = some "" →
      loadStruct w env pfx ((tag, opt, dfl, ty) :: fs) (v :: vs)
        = (v :: vs, some (.emptyRequired (toUpperStr (resolveKey pfx tag))))) := by
  constructor
  · intro hl
    rw [loadStruct_cons]
    have hpf : procField w env pfx tag opt dfl ty v
        = (v, some (.missingRequired (toUpperStr (resolveKey pfx tag)))) := by
      rw [procField_leaf w env pfx tag opt dfl ty v h0 ht]
      simp only [leafStep]
      rw [hl, if_pos hreq]
    rw [hpf]
  · intro hl
    rw [loadStruct_cons]
    have hpf : procField w env pfx tag opt dfl ty v
        = (v, some (.emptyRequired (toUpperStr (resolveKey pfx tag)))) := by
      rw [procField_leaf w env pfx tag opt dfl ty v h0 ht]
      simp only [leafStep]
      rw [hl]
      simp [hreq]
    rw [hpf]

/-- Witness for C1: the corrected behaviour at the counterexample field,
for both the absent-key and the present-but-empty cases. -/
theorem c1_required_ignores_default_witness :
    loadStruct wUnit [] "" [("port,required", "", "8080", .int 64)] [.vInt 0]
      = ([.vInt 0], some (.missingRequired (toUpperStr (resolveKey "" "port,required")))) ∧
    loadStruct wUnit [("PORT", "")] "" [("port,required", "", "8080", .int 64)] [.vInt 0]
      = ([.vInt 0], some (.emptyRequired (toUpperStr (resolveKey "" "port,required")))) :=
  ⟨(c1_required_ignores_default wUnit [] "" "port,required" "" "8080" (.int 64) (.vInt 0)
      [] [] (by decide) (by decide) (by decide)).1 rfl,
   (c1_required_ignores_default wUnit [("PORT", "")] "" "port,required" "" "8080" (.int 64)
      (.vInt 0) [] [] (by decide) (by decide) (by decide)).2 rfl⟩

/-- Claim C10.  An optional leaf field with no default whose key is present
but bound to the empty string is not skipped: the empty string goes into
coercion, so a text field is assigned the empty string, while an integer
or boolean field fails with a conversion error wrapping the empty-string
parse failure under the resolved key. -/
theorem c10_present_empty_coerces (w : World) (env : Env) (pfx tag opt : String)
    (b : Nat) (v : Value)
    (h0 : (tag == "") = false)
    (ht : strHasPre tag "nested:" = false)
    (hreq : (parseTag tag).required = false)
    (hl : lookupEnv env (toUpperStr (resolveKey pfx tag)) = some "") :
    procField w env pfx tag opt "" .str v = (.vStr "", none) ∧
    procField w env pfx tag opt "" (.int b) v
      = (v, some (.parseFailure (toUpperStr (resolveKey pfx tag)) (.parseIntErr ""))) ∧
    procField w env pfx tag opt "" (.uint b) v
      = (v, some (.parseFailure (toUpperStr (resolveKey pfx tag)) (.parseUintErr ""))) ∧
    procField w env pfx tag opt "" (.float b) v
      = (v, some (.parseFailure (toUpperStr (resolveKey pfx tag)) (.parseFloatErr ""))) ∧
    procField w env pfx tag opt "" .bool v
      = (v, some (.parseFailure (toUpperStr (resolveKey pfx tag)) (.parseBoolErr ""))) := by
  refine ⟨?_, ?_, ?_, ?_, ?_⟩ <;>
    · rw [procField_leaf _ _ _ _ _ _ _ _ h0 ht]
      simp only [leafStep]
      rw [hl]
      simp [hreq]
      rfl

/-- Witness for C10 at a concrete field and environment. -/
theorem c10_present_empty_coerces_witness :
    procField wUnit [("P_A", "")] "P" "a" "" "" .str (.vStr "old") = (.vStr "", none) ∧
    procField wUnit [("P_A", "")] "P" "a" "" "" (.int 64) (.vInt 3)
      = (.vInt 3, some (.parseFailure (toUpperStr (resolveKey "P" "a")) (.parseIntErr ""))) ∧
    procField wUnit [("P_A", "")] "P" "a" "" "" .bool (.vBool false)
      = (.vBool false, some (.parseFailure (toUpperStr (resolveKey "P" "a")) (.parseBoolErr ""))) := by
  have h := c10_present_empty_coerces wUnit [("P_A", "")] "P" "a" "" 64 (.vStr "old")
    (by decide) (by decide) (by decide) (by decide)
  exact ⟨h.1,
    (c10_present_empty_coerces wUnit [("P_A", "")] "P" "a" "" 64 (.vInt 3)
      (by decide) (by decide) (by decide) (by decide)).2.1,
    (c10_present_empty_coerces wUnit [("P_A", "")] "P" "a" "" 64 (.vBool false)
      (by decide) (by decide) (by decide) (by decide)).2.2.2.2⟩

/-- Claim C7.  For a leaf field inside a struct tagged with a nesting
directive, the lookup key is the upper-cased underscore-join of the base
prefix, the nesting suffix and the field's key: with base prefix pfx,
outer tag "nested:" ++ sfx and inner tag key, the value bound to
UPPER(pfx_sfx_key) is assigned to the inner field. -/
theorem c7_nested_key_join (w : World) (pfx sfx key s : String)
    (hp : (pfx == "") = false)
    (hk0 : (key == "") = false)
    (hks : strHasPre key "nested:" = false)
    (hkc : splitComma key = [key])
    (hkt : trimSpace key = key) :
    loadStruct w [(toUpperStr (pfx ++ "_" ++ sfx ++ "_" ++ key), s)] pfx
        [("nested:" ++ sfx, "", "", .strct [(key, "", "", .str)])]
        [.vStruct [.vStr ""]]
      = ([.vStruct [.vStr s]], none) := by
  have hpfx2 : ((pfx ++ "_") ++ sfx == "") = false := append_underscore_ne_empty pfx sfx
  have hassoc : ((pfx ++ "_") ++ sfx) ++ "_" ++ key = pfx ++ "_" ++ sfx ++ "_" ++ key := by
    simp [String.append_assoc]
  have hlook : lookupEnv [(toUpperStr (pfx ++ "_" ++ sfx ++ "_" ++ key), s)]
      (toUpperStr (resolveKey ((pfx ++ "_") ++ sfx) key)) = some s := by
    rw [resolveKey_plain _ key hkc hkt hpfx2, hassoc]
    simp [lookupEnv]
  have hinner : leafStep w [(toUpperStr (pfx ++ "_" ++ sfx ++ "_" ++ key), s)]
      ((pfx ++ "_") ++ sfx) key "" "" .str (.vStr "") = (.vStr s, none) := by
    simp only [leafStep]
    rw [hlook]
    have hreq : (parseTag key).required = false := by
      rw [parseTag_plain key hkc hkt]
    simp only [hreq, Bool.false_and, Bool.false_eq_true, if_false]
    rw [if_empty_default s]
    rfl
  have hp2 : (pfx != "") = true := by simp [bne, hp]
  rw [loadStruct_cons]
  have hpf : procField w [(toUpperStr (pfx ++ "_" ++ sfx ++ "_" ++ key), s)] pfx
      ("nested:" ++ sfx) "" "" (.strct [(key, "", "", .str)]) (.vStruct [.vStr ""])
      = (.vStruct [.vStr s], none) := by
    rw [procField, if_pos (by rw [strHasPre_append]; simp)]
    rw [nestedStep_strct, hp2, if_pos rfl, trimPre_append]
    rw [loadStruct_cons]
    rw [procField_leaf _ _ _ _ _ _ _ _ hk0 hks]
    rw [hinner]
    rfl
  rw [hpf]
  rfl

/-- Claim C9.  The traversal is fail-fast with no rollback: a successfully
processed prefix of fields keeps exactly its assigned values when a later
field fails (and later fields keep their old values, as the failing step
returns the remaining values untouched); and every error the traversal
returns is a single field error naming the upper-cased resolved key of
the offending field — missing-required, empty-required, or a conversion
failure wrapping the root cause under that key. -/
theorem c9_failfast_no_rollback (w : World) (env : Env) (pfx : String) :
    (∀ (fs1 : List FieldD) (vs1 : List Value) (fs2 : List FieldD) (vs2 : List Value)
        (r1 : List Value),
        fs1.length = vs1.length →
        loadStruct w env pfx fs1 vs1 = (r1, none) →
        loadStruct w env pfx (fs1 ++ fs2) (vs1 ++ vs2)
          = (r1 ++ (loadStruct w env pfx fs2 vs2).1, (loadStruct w env pfx fs2 vs2).2)) ∧
    (∀ (fs : List FieldD) (vs : List Value) (e : GoErr),
        (loadStruct w env pfx fs vs).2 = some e → fieldErrShape e) :=
  ⟨loadStruct_append_of_ok w env pfx,
   fun fs vs e h => (errKey_aux w env (fdsW fs)).1 fs le_rfl pfx vs e h⟩

/-- Witness for C9: a string field assigned "x" retains it when the next
field fails on a bad int, and that error is field-shaped. -/
theorem c9_failfast_no_rollback_witness :
    loadStruct wUnit [("P_A", "x"), ("P_B", "z")] "P"
        ([("a", "", "", .str)] ++ [("b", "", "", .int 64)])
        ([.vStr ""] ++ [.vInt 0])
      = ([.vStr "x"] ++ (loadStruct wUnit [("P_A", "x"), ("P_B", "z")] "P"
            [("b", "", "", .int 64)] [.vInt 0]).1,
         (loadStruct wUnit [("P_A", "x"), ("P_B", "z")] "P"
            [("b", "", "", .int 64)] [.vInt 0]).2) ∧
    fieldErrShape (.parseFailure "P_B" (.parseIntErr "z")) :=
  ⟨(c9_failfast_no_rollback wUnit [("P_A", "x"), ("P_B", "z")] "P").1
      [("a", "", "", .str)] [.vStr ""] [("b", "", "", .int 64)] [.vInt 0] [.vStr "x"]
      (by decide) rfl,
   (c9_failfast_no_rollback wUnit [("P_A", "x"), ("P_B", "z")] "P").2
      [("b", "", "", .int 64)] [.vInt 0] (.parseFailure "P_B" (.parseIntErr "z")) rfl⟩

/-- Witness for C7: the spec scenario, prefix APP, nested suffix addr,
inner key city, APP_ADDR_CITY bound to NYC. -/
theorem c7_nested_key_join_witness :
    loadStruct wUnit [(toUpperStr ("APP" ++ "_" ++ "addr" ++ "_" ++ "city"), "NYC")] "APP"
        [("nested:" ++ "addr", "", "", .strct [("city", "", "", .str)])]
        [.vStruct [.vStr ""]]
      = ([.vStruct [.vStr "NYC"]], none) :=
  c7_nested_key_join wUnit "APP" "addr" "city" "NYC"
    (by decide) (by decide) (by decide) (by decide) (by decide)

end Enviro
